import Mathlib

/-!
Shallow embedding of the spike-detection pipeline of the xleaderboard
repository (`backend/bots/spike`): the sliding-window spike engine
(`processors.py`), the worker-pool rebalancing (`main.py`), and the
WebSocket worker's message parsing, reconnect backoff and queue push
(`websocket_worker.py`).  Python floats are modelled as rationals and
Python dicts holding JSON data as association lists; code paths that
raise an exception are modelled by explicit constructors or `Option`.
-/

/-- Tunable constants imported by `processors.py` from
`backend/bots/spike/config.py`. -/
structure Config where
  MIN_BUY_USD : ℚ
  SPIKE_THRESHOLD : Nat
  TIME_WINDOW : ℚ
  MAX_SIGNAL_PRICE : ℚ

/-- The concrete values assigned in `config.py`. -/
def defaultConfig : Config :=
  { MIN_BUY_USD := 2500, SPIKE_THRESHOLD := 4, TIME_WINDOW := 120
  , MAX_SIGNAL_PRICE := 98 / 100 }

/-- A parsed trade, the dict built by `EventProcessor.parse_event`. -/
structure Trade where
  asset_id : String
  size : ℚ
  price : ℚ
  side : String
  usd_value : ℚ
  timestamp : ℚ
deriving DecidableEq

/-- One entry of `EventProcessor.asset_counters` (a defaultdict whose
values hold a deque of recent trades, oldest first). -/
structure AssetCounter where
  recent_trades : List Trade
  count : Nat
  last_activity : ℚ
  last_alert_count : Nat
deriving DecidableEq

/-- The fresh value a defaultdict entry gets on first access
(`processors.py`, lines 15-20); `t` is the creation-time clock reading. -/
def initCounter (t : ℚ) : AssetCounter :=
  { recent_trades := [], count := 0, last_activity := t, last_alert_count := 0 }

/-- One value of `asset_to_market_map` as built by
`build_asset_to_market_map` in `main.py`. -/
structure MarketInfo where
  market_id : String
  question : String
  slug : String
  event_slug : String
  outcomes : List String
  prices : List ℚ
  outcome_index : Nat
deriving DecidableEq

/-- The `spike_data` dict assembled by `EventProcessor.trigger_alert`. -/
structure SpikeData where
  market_id : String
  question : String
  outcome : String
  price : ℚ
  timestamp : ℚ
  asset_id : String
  event_slug : String
  count : Nat
  amount_usd : ℚ
deriving DecidableEq

/-- The `while trades and (current_time - trades[0].timestamp) > TIME_WINDOW:
trades.popleft()` loop of `EventProcessor.prune_old_trades`: trades are
dropped from the front while the front trade is too old. -/
def pruneList (W now : ℚ) : List Trade → List Trade
  | [] => []
  | t :: ts => if now - t.timestamp > W then pruneList W now ts else t :: ts

/-- `EventProcessor.prune_old_trades` (lines 58-71): prune the deque,
recompute `count` as its length, and reset `last_alert_count` to 0 when
the count dropped from `≥ SPIKE_THRESHOLD` to `< SPIKE_THRESHOLD`.
`old_count` is the stored count from before this prune. -/
def prune_old_trades (cfg : Config) (now : ℚ) (c : AssetCounter) : AssetCounter :=
  let trades := pruneList cfg.TIME_WINDOW now c.recent_trades
  let old_count := c.count
  let new_count := trades.length
  { c with
    recent_trades := trades
    count := new_count
    last_alert_count :=
      if cfg.SPIKE_THRESHOLD ≤ old_count ∧ new_count < cfg.SPIKE_THRESHOLD then 0
      else c.last_alert_count }

/-- The reset condition of `prune_old_trades` (line 70), observed as a
flag so runs can record whether a prune reset `last_alert_count`. -/
def prune_resets (cfg : Config) (now : ℚ) (c : AssetCounter) : Bool :=
  decide (cfg.SPIKE_THRESHOLD ≤ c.count ∧
    (pruneList cfg.TIME_WINDOW now c.recent_trades).length < cfg.SPIKE_THRESHOLD)

/-- Outcome of `EventProcessor.trigger_alert`: `raised` models an
IndexError from `outcomes[outcome_index]` or `recent_trades[-1]` (the
exception escapes to `run_async`'s catch-all, so nothing is delivered
and, importantly, `handle_spike` line 98 is skipped); `suppressed` is
the early return when the triggering price exceeds `MAX_SIGNAL_PRICE`;
`delivered s` hands `s` to the persistence sink (`signal_store`) and
the broadcast sink (`ws_manager`). -/
inductive TriggerResult where
  | raised
  | suppressed
  | delivered (s : SpikeData)
deriving DecidableEq

/-- `EventProcessor.trigger_alert` (lines 100-154). -/
def trigger_alert (cfg : Config) (now : ℚ) (asset_id : String)
    (mi : MarketInfo) (c : AssetCounter) : TriggerResult :=
  let total_usd := (c.recent_trades.map (·.usd_value)).sum
  match mi.outcomes[mi.outcome_index]?, c.recent_trades.getLast? with
  | some outcome, some lastTrade =>
      if lastTrade.price > cfg.MAX_SIGNAL_PRICE then .suppressed
      else .delivered
        { market_id := mi.market_id, question := mi.question, outcome := outcome
        , price := lastTrade.price, timestamp := now, asset_id := asset_id
        , event_slug := mi.event_slug, count := c.count, amount_usd := total_usd }
  | _, _ => .raised

/-- What one call of `EventProcessor.handle_spike` does: the counter
state it leaves behind, whether the spike condition fired (i.e.
`trigger_alert` was invoked), the alert actually delivered to the sinks
(if any), and whether this step's prune reset `last_alert_count`. -/
structure HandleResult where
  counter : AssetCounter
  fired : Bool
  alert : Option SpikeData
  reset : Bool
deriving DecidableEq

/-- Lines 86-88 of `handle_spike`: append the trade and update
`last_activity`; the stored `count` is not touched here. -/
def appendTrade (now : ℚ) (tr : Trade) (c : AssetCounter) : AssetCounter :=
  { c with recent_trades := c.recent_trades ++ [tr], last_activity := now }

/-- The counter after the append (line 87) and the prune (line 91). -/
def afterPrune (cfg : Config) (now : ℚ) (tr : Trade) (c : AssetCounter) : AssetCounter :=
  prune_old_trades cfg now (appendTrade now tr c)

/-- `EventProcessor.handle_spike` (lines 73-98).  `asset_map` is
`self.asset_map`; `c` is the defaultdict entry for `asset_id`; `now` is
the `time.time()` reading taken at line 83. -/
def handle_spike (cfg : Config) (now : ℚ) (asset_map : String → Option MarketInfo)
    (asset_id : String) (tr : Trade) (c : AssetCounter) : HandleResult :=
  if tr.side ≠ "BUY" ∨ tr.usd_value < cfg.MIN_BUY_USD then
    { counter := c, fired := false, alert := none, reset := false }
  else
    match asset_map asset_id with
    | none => { counter := c, fired := false, alert := none, reset := false }
    | some mi =>
        let resetFlag := prune_resets cfg now (appendTrade now tr c)
        let c2 := afterPrune cfg now tr c
        if cfg.SPIKE_THRESHOLD ≤ c2.count ∧ c2.last_alert_count < c2.count ∧
            c2.count % cfg.SPIKE_THRESHOLD = 0 then
          match trigger_alert cfg now asset_id mi c2 with
          | .raised =>
              { counter := c2, fired := true, alert := none, reset := resetFlag }
          | .suppressed =>
              { counter := { c2 with last_alert_count := c2.count }
              , fired := true, alert := none, reset := resetFlag }
          | .delivered s =>
              { counter := { c2 with last_alert_count := c2.count }
              , fired := true, alert := some s, reset := resetFlag }
        else
          { counter := c2, fired := false, alert := none, reset := resetFlag }

/-- Observations recorded for one `handle_spike` call in a run: the
stored count after the call, whether the spike condition fired, and
whether the prune reset `last_alert_count`. -/
structure StepLog where
  count : Nat
  fired : Bool
  reset : Bool
deriving DecidableEq

/-- Iterated per-event processing, as `run_async` feeds dequeued events
of one instrument to `handle_spike`; each pair is the processing-time
clock reading and the parsed trade. -/
def runTrades (cfg : Config) (am : String → Option MarketInfo) (aid : String) :
    AssetCounter → List (ℚ × Trade) → AssetCounter × List StepLog
  | c, [] => (c, [])
  | c, (now, tr) :: rest =>
      let r := handle_spike cfg now am aid tr c
      let rr := runTrades cfg am aid r.counter rest
      (rr.1, { count := r.counter.count, fired := r.fired, reset := r.reset } :: rr.2)

/-- The stream of trades numbered `s+1, …, s+n`, trade `i` being handed
to `handle_spike` at clock reading `τ i`. -/
def scenEvents (τ : Nat → ℚ) (mk : Nat → Trade) (s : Nat) : Nat → List (ℚ × Trade)
  | 0 => []
  | n + 1 => (τ (s + 1), mk (s + 1)) :: scenEvents τ mk (s + 1) n

/-- Trades numbered `1, …, s` in arrival order. -/
def mkList (mk : Nat → Trade) : Nat → List Trade
  | 0 => []
  | s + 1 => mkList mk s ++ [mk (s + 1)]

/-- `split_chunks` in `main.py` (lines 49-54): contiguous slices of at
most `size` elements.  (Python's `range` with step 0 raises; callers
always pass `CHUNK_SIZE = 3000`, so `size = 0` is mapped to `[]`.) -/
def split_chunks (ids : List String) (size : Nat) : List (List String) :=
  if _h : size = 0 ∨ ids = [] then []
  else ids.take size :: split_chunks (ids.drop size) size
termination_by ids.length
decreasing_by
  rcases ids with _ | ⟨a, l⟩
  · simp at _h
  · have hs : size ≠ 0 := fun h0 => _h (Or.inl h0)
    rw [List.length_drop]
    simp only [List.length_cons]
    omega

/-- The `available_workers` computation of `SpikeBot.subscribe_new_assets`
(lines 156-162): for each worker (indexed in `self.workers` order, the
first argument being the index of the head) whose chunk is below
`CHUNK_SIZE`, the pair of its index and its spare capacity. -/
def spare_capacities (CS : Nat) : Nat → List (List String) → List (Nat × Nat)
  | _, [] => []
  | i, ch :: rest =>
      (if ch.length < CS then [(i, CS - ch.length)] else []) ++
        spare_capacities CS (i + 1) rest

/-- The inner per-worker part of the distribution loop of
`subscribe_new_assets` (lines 172-183): assets are appended to the
current worker one at a time, and the loop advances to the next worker
as soon as the number assigned so far (`cnt`, after the append) reaches
the worker's capacity.  Returns the ids this worker received and the
ids left for later workers. -/
def fill_worker (cap : Nat) (cnt : Nat) : List String → List String × List String
  | [] => ([], [])
  | id :: ids =>
      if cap ≤ cnt + 1 then ([id], ids)
      else
        let fr := fill_worker cap (cnt + 1) ids
        (id :: fr.1, fr.2)

/-- The whole distribution loop: successive workers (given by their
capacities, in sorted order) are filled in turn; ids remaining when the
worker list is exhausted are the `unassigned_assets`. -/
def distribute_assets : List Nat → List String → List (List String) × List String
  | [], ids => ([], ids)
  | cap :: caps, ids =>
      let fw := fill_worker cap 0 ids
      let dr := distribute_assets caps fw.2
      (fw.1 :: dr.1, dr.2)

/-- `SpikeBot.subscribe_new_assets` (lines 151-207), restricted to its
observable assignment decision.  Returns the per-worker assignments
(each sorted `(worker index, capacity)` pair with the ids it receives),
the `unassigned_assets`, and the chunks for which new workers are
spawned.  The guard `if not self.workers or not self.logger: return`
is modelled by the empty-chunks case (`self.logger` is always set). -/
def subscribe_new_assets (CS : Nat) (chunks : List (List String))
    (newIds : List String) :
    List ((Nat × Nat) × List String) × List String × List (List String) :=
  if chunks.isEmpty then ([], [], [])
  else
    let avail := spare_capacities CS 0 chunks
    let sortedAvail := avail.mergeSort (fun a b => b.2 ≤ a.2)
    let dr := distribute_assets (sortedAvail.map (fun p => p.2)) newIds
    (sortedAvail.zip dr.1, dr.2, split_chunks dr.2 CS)

/-- The backoff sleep of `WebSocketWorker.run` (line 173):
`5 * (2 ** min(self.reconnect_attempts, 5))`, computed from the value of
`reconnect_attempts` at that point. -/
def backoff_sleep (attempts : Nat) : ℚ := 5 * 2 ^ min attempts 5

/-- How one iteration of the `while self.running` loop of
`WebSocketWorker.run` (lines 126-175) can end: the connection opened
(so `on_open` ran, resetting `reconnect_attempts` to 0 at line 59) and
`run_forever` later returned normally; the connection opened and the
try-block later raised; or the try-block raised without the connection
ever opening. -/
inductive ConnOutcome where
  | openThenClose
  | openThenRaise
  | failRaise
deriving DecidableEq

/-- Effect of one loop iteration of `WebSocketWorker.run` on
`reconnect_attempts`, and the sleep it performs (none = the loop
repeats immediately).  On an exception the counter is incremented
first (line 172) and the sleep is computed from the incremented value
(line 173). -/
def run_step (attempts : Nat) : ConnOutcome → Nat × Option ℚ
  | .openThenClose => (0, none)
  | .openThenRaise => (0 + 1, some (backoff_sleep (0 + 1)))
  | .failRaise => (attempts + 1, some (backoff_sleep (attempts + 1)))

/-- A Python `queue.Queue(maxsize)` as created in `setup_infrastructure`
(`main.py` line 70); `maxsize = 0` would mean unbounded. -/
structure PyQueue (α : Type) where
  maxsize : Nat
  items : List α
deriving DecidableEq

/-- `queue.Queue.put(item)` with the default `block=True, timeout=None`,
as called at `websocket_worker.py` line 93: if the queue is bounded and
full, the call suspends until a consumer frees a slot — with no bound
on the wait and no drop policy; `none` models that suspension. -/
def queue_put {α : Type} (q : PyQueue α) (x : α) : Option (PyQueue α) :=
  if q.maxsize = 0 ∨ q.items.length < q.maxsize then
    some { q with items := q.items ++ [x] }
  else none

/-- The `maxsize` passed to `queue.Queue` in `setup_infrastructure`. -/
def EVENT_QUEUE_MAXSIZE : Nat := 10000

/-- JSON values as produced by `json.loads`. -/
inductive Json where
  | null
  | bool (b : Bool)
  | num (q : ℚ)
  | str (s : String)
  | arr (elems : List Json)
  | obj (fields : List (String × Json))

/-- An inbound WebSocket message after the checks at
`websocket_worker.py` line 64: either it is blank / does not start with
a brace or bracket / fails `json.loads` (all silently discarded), or it
parses to a JSON object or a JSON array (the only shapes a message
passing the prefix check can have). -/
inductive RawMsg where
  | notStructured
  | parsedObj (fields : List (String × Json))
  | parsedArr (elems : List Json)

/-- Dict field lookup, `data['k']` / `data.get('k')` on a parsed JSON
object (`json.loads` keeps one value per key). -/
def dict_get (fields : List (String × Json)) (k : String) : Option Json :=
  (fields.find? (·.1 == k)).map (·.2)

/-- Digit-string accumulation for `parseFloatStr`. -/
def parseDigits (acc : Nat) : List Char → Option Nat
  | [] => some acc
  | c :: cs => if c.isDigit then parseDigits (acc * 10 + (c.toNat - 48)) cs else none

/-- Unsigned decimal literal: digits with an optional single point
(`"3"`, `"3.5"`, `"3."`, `".5"`). -/
def parseUnsignedDec (cs : List Char) : Option ℚ :=
  let intPart := cs.takeWhile (·.isDigit)
  match cs.dropWhile (·.isDigit) with
  | [] =>
      if intPart = [] then none
      else (parseDigits 0 intPart).map (fun n => (n : ℚ))
  | '.' :: frac =>
      if frac.all (·.isDigit) ∧ (intPart ≠ [] ∨ frac ≠ []) then
        match parseDigits 0 intPart, parseDigits 0 frac with
        | some n, some f => some ((n : ℚ) + (f : ℚ) / 10 ^ frac.length)
        | _, _ => none
      else none
  | _ => none

/-- Model of Python's `float(str)` for plain signed decimal literals
(the forms trade feeds carry; exponent / `inf` / `nan` / whitespace
forms are not modelled and map to `none` = `ValueError`). -/
def parseFloatStr (s : String) : Option ℚ :=
  match s.toList with
  | '+' :: cs => parseUnsignedDec cs
  | '-' :: cs => (parseUnsignedDec cs).map Neg.neg
  | cs => parseUnsignedDec cs

/-- Model of Python's `float(x)` as used at lines 77-78: numbers pass
through, booleans coerce to 0/1, strings go through the decimal parser,
everything else raises `TypeError` (→ `none`, caught at line 85). -/
def pyFloat : Json → Option ℚ
  | .num q => some q
  | .bool b => some (if b then 1 else 0)
  | .str s => parseFloatStr s
  | _ => none

/-- The dict a worker pushes to the event queue at lines 91-93: the
parsed object with `size`/`price` replaced by their float conversions
and `_worker_id` / `_timestamp` added. -/
structure QueuedTrade where
  fields : List (String × Json)
  size : ℚ
  price : ℚ
  worker_id : Nat
  timestamp : ℚ

/-- `WebSocketWorker.on_message` (lines 62-97).  `now` is the
`time.time()` reading at line 92.  Returns the event pushed to the
queue, or `none` when the message is discarded (every discard path in
the source either returns early or lands in the catch-all at line 96,
so the handler always returns normally).  A parsed array can contain
all four key strings and pass the `in` checks, but `data.get` then
raises `AttributeError`, which the catch-all swallows — so arrays never
produce an event. -/
def on_message (worker_id : Nat) (now : ℚ) (msg : RawMsg) : Option QueuedTrade :=
  match msg with
  | .notStructured => none
  | .parsedArr _ => none
  | .parsedObj fields =>
      if (dict_get fields "asset_id").isNone ∨ (dict_get fields "size").isNone ∨
          (dict_get fields "price").isNone ∨ (dict_get fields "side").isNone then
        none
      else
        let size_val := (dict_get fields "size").getD (.num 0)
        let price_val := (dict_get fields "price").getD (.num 0)
        match pyFloat size_val, pyFloat price_val with
        | some size_f, some price_f =>
            if size_f ≤ 0 ∨ price_f ≤ 0 then none
            else
              match dict_get fields "event_type" with
              | some (.str et) =>
                  if et = "last_trade_price" then
                    some { fields := fields, size := size_f, price := price_f
                         , worker_id := worker_id, timestamp := now }
                  else none
              | _ => none
        | _, _ => none

/-- The acceptance condition of `on_message` as the spec (amended for
the checks the code actually makes) words it: a structured object whose
`asset_id` and `side` keys are present, whose `size` and `price`
convert via `float()` to strictly positive values, and whose
`event_type` is the string `last_trade_price`. -/
def on_message_accepts : RawMsg → Bool
  | .parsedObj fields =>
      (dict_get fields "asset_id").isSome &&
      (dict_get fields "side").isSome &&
      (match ((dict_get fields "size").bind pyFloat),
             ((dict_get fields "price").bind pyFloat) with
       | some s, some p => decide (0 < s) && decide (0 < p)
       | _, _ => false) &&
      (match dict_get fields "event_type" with
       | some (.str et) => et == "last_trade_price"
       | _ => false)
  | _ => false

/-! ### Supporting lemmas about the prune loop -/

theorem pruneList_suffix (W now : ℚ) : ∀ l : List Trade, (pruneList W now l).IsSuffix l
  | [] => List.suffix_rfl
  | t :: ts => by
    rw [pruneList]
    split
    · exact (pruneList_suffix W now ts).trans (List.suffix_cons t ts)
    · exact List.suffix_rfl

theorem pruneList_append_last (W now : ℚ) (x : Trade) :
    ∀ l : List Trade, pruneList W now (l ++ [x]) = [] ∨
      ∃ l', pruneList W now (l ++ [x]) = l' ++ [x]
  | [] => by
    rw [List.nil_append, pruneList]
    split
    · exact Or.inl rfl
    · exact Or.inr ⟨[], rfl⟩
  | t :: ts => by
    rw [List.cons_append, pruneList]
    split
    · exact pruneList_append_last W now x ts
    · exact Or.inr ⟨t :: ts, by rw [List.cons_append]⟩

theorem pruneList_getLast_append (W now : ℚ) (l : List Trade) (x lastT : Trade)
    (h : (pruneList W now (l ++ [x])).getLast? = some lastT) : lastT = x := by
  rcases pruneList_append_last W now x l with h0 | ⟨l', hl⟩
  · rw [h0] at h
    simp at h
  · rw [hl, List.getLast?_append] at h
    simp at h
    exact h.symm

theorem pruneList_mem_window (W now : ℚ) (l : List Trade)
    (hp : l.Pairwise (fun a b => a.timestamp ≤ b.timestamp)) :
    ∀ t ∈ pruneList W now l, now - t.timestamp ≤ W := by
  induction l with
  | nil => intro t ht; rw [pruneList] at ht; cases ht
  | cons x xs ih =>
    intro t ht
    rw [pruneList] at ht
    split at ht
    · exact ih (List.Pairwise.of_cons hp) t ht
    · rename_i hkeep
      rcases List.mem_cons.mp ht with rfl | hmem
      · exact not_lt.mp hkeep
      · have hx : x.timestamp ≤ t.timestamp := (List.pairwise_cons.mp hp).1 t hmem
        have hfront : now - x.timestamp ≤ W := not_lt.mp hkeep
        linarith

theorem pruneList_no_prune (W now : ℚ) (x : Trade) (xs : List Trade)
    (h : ¬ now - x.timestamp > W) : pruneList W now (x :: xs) = x :: xs := by
  rw [pruneList, if_neg h]

/-! ### Shape of `handle_spike`'s result on a processed trade -/

theorem afterPrune_recent (cfg : Config) (now : ℚ) (tr : Trade) (c : AssetCounter) :
    (afterPrune cfg now tr c).recent_trades =
      pruneList cfg.TIME_WINDOW now (c.recent_trades ++ [tr]) := rfl

theorem afterPrune_count (cfg : Config) (now : ℚ) (tr : Trade) (c : AssetCounter) :
    (afterPrune cfg now tr c).count =
      (pruneList cfg.TIME_WINDOW now (c.recent_trades ++ [tr])).length := rfl

theorem handle_spike_counter_shape (cfg : Config) (now : ℚ)
    (am : String → Option MarketInfo) (aid : String) (tr : Trade) (c : AssetCounter)
    (mi : MarketInfo) (hside : tr.side = "BUY")
    (husd : ¬ tr.usd_value < cfg.MIN_BUY_USD) (ham : am aid = some mi) :
    (handle_spike cfg now am aid tr c).counter.recent_trades =
        pruneList cfg.TIME_WINDOW now (c.recent_trades ++ [tr]) ∧
    (handle_spike cfg now am aid tr c).counter.count =
        (pruneList cfg.TIME_WINDOW now (c.recent_trades ++ [tr])).length := by
  rw [handle_spike, if_neg (by simp [hside, husd]), ham]
  dsimp only
  split
  · split <;> exact ⟨rfl, rfl⟩
  · exact ⟨rfl, rfl⟩

theorem trigger_alert_delivered_facts (cfg : Config) (now : ℚ) (aid : String)
    (mi : MarketInfo) (c : AssetCounter) (s : SpikeData)
    (h : trigger_alert cfg now aid mi c = .delivered s) :
    ∃ lastT, c.recent_trades.getLast? = some lastT ∧
      ¬ lastT.price > cfg.MAX_SIGNAL_PRICE ∧ s.price = lastT.price ∧
      s.amount_usd = (c.recent_trades.map (·.usd_value)).sum ∧ s.count = c.count := by
  rw [trigger_alert] at h
  rcases ho : mi.outcomes[mi.outcome_index]? with _ | outcome <;>
    rcases hl : c.recent_trades.getLast? with _ | lastT <;>
      rw [ho, hl] at h
  · cases h
  · cases h
  · cases h
  · dsimp only at h
    split at h
    · cases h
    · rename_i hprice
      cases h
      exact ⟨lastT, rfl, hprice, rfl, rfl, rfl⟩

theorem handle_spike_qualified (cfg : Config) (now : ℚ)
    (am : String → Option MarketInfo) (aid : String) (tr : Trade) (c : AssetCounter)
    (mi : MarketInfo) (hside : tr.side = "BUY")
    (husd : ¬ tr.usd_value < cfg.MIN_BUY_USD) (ham : am aid = some mi) :
    handle_spike cfg now am aid tr c =
      (if cfg.SPIKE_THRESHOLD ≤ (afterPrune cfg now tr c).count ∧
          (afterPrune cfg now tr c).last_alert_count < (afterPrune cfg now tr c).count ∧
          (afterPrune cfg now tr c).count % cfg.SPIKE_THRESHOLD = 0 then
        match trigger_alert cfg now aid mi (afterPrune cfg now tr c) with
        | .raised =>
            { counter := afterPrune cfg now tr c, fired := true, alert := none
            , reset := prune_resets cfg now (appendTrade now tr c) }
        | .suppressed =>
            { counter := { afterPrune cfg now tr c with
                            last_alert_count := (afterPrune cfg now tr c).count }
            , fired := true, alert := none
            , reset := prune_resets cfg now (appendTrade now tr c) }
        | .delivered s =>
            { counter := { afterPrune cfg now tr c with
                            last_alert_count := (afterPrune cfg now tr c).count }
            , fired := true, alert := some s
            , reset := prune_resets cfg now (appendTrade now tr c) }
      else
        { counter := afterPrune cfg now tr c, fired := false, alert := none
        , reset := prune_resets cfg now (appendTrade now tr c) }) := by
  rw [handle_spike, if_neg (by simp [hside, husd]), ham]

/-! ### Concrete fixtures used by witnesses -/

def wMi : MarketInfo :=
  { market_id := "m", question := "q", slug := "s", event_slug := "e"
  , outcomes := ["Yes", "No"], prices := [1/2, 1/2], outcome_index := 0 }

def wAm : String → Option MarketInfo := fun s => if s = "a" then some wMi else none

def wBuy (ts : ℚ) (price : ℚ) : Trade :=
  { asset_id := "a", size := 6000, price := price, side := "BUY"
  , usd_value := 3000, timestamp := ts }

theorem handle_spike_rejected (cfg : Config) (now : ℚ)
    (am : String → Option MarketInfo) (aid : String) (tr : Trade) (c : AssetCounter)
    (h : tr.side ≠ "BUY" ∨ tr.usd_value < cfg.MIN_BUY_USD) :
    handle_spike cfg now am aid tr c =
      { counter := c, fired := false, alert := none, reset := false } := by
  rw [handle_spike, if_pos h]

/-- C5: a trade that is not a BUY, or whose `usd_value` is below
`MIN_BUY_USD`, is rejected by the first check of `handle_spike`: the
counter is left exactly as it was, nothing fires, no alert is delivered
and no reset happens. -/
theorem C5_irrelevant_trade_rejected (cfg : Config) (now : ℚ)
    (am : String → Option MarketInfo) (aid : String) (tr : Trade) (c : AssetCounter)
    (h : tr.side ≠ "BUY" ∨ tr.usd_value < cfg.MIN_BUY_USD) :
    handle_spike cfg now am aid tr c =
      { counter := c, fired := false, alert := none, reset := false } :=
  handle_spike_rejected cfg now am aid tr c h

theorem C5_irrelevant_trade_rejected_witness :
    (("SELL" : String) ≠ "BUY" ∨
        ({ wBuy 0 (1/2) with side := "SELL" } : Trade).usd_value <
          defaultConfig.MIN_BUY_USD) ∧
    handle_spike defaultConfig 0 wAm "a" { wBuy 0 (1/2) with side := "SELL" }
        (initCounter 0) =
      { counter := initCounter 0, fired := false, alert := none, reset := false } :=
  ⟨Or.inl (by decide),
   C5_irrelevant_trade_rejected defaultConfig 0 wAm "a" _ (initCounter 0)
     (Or.inl (by decide))⟩

/-- C4: whenever the triggering trade's price exceeds
`MAX_SIGNAL_PRICE`, `handle_spike` delivers no alert to either sink:
the only branch of `trigger_alert` that delivers reads the price of the
last trade of the pruned window, which is the appended trade itself. -/
theorem C4_price_suppression (cfg : Config) (now : ℚ)
    (am : String → Option MarketInfo) (aid : String) (tr : Trade) (c : AssetCounter)
    (hp : tr.price > cfg.MAX_SIGNAL_PRICE) :
    (handle_spike cfg now am aid tr c).alert = none := by
  by_cases hrej : tr.side ≠ "BUY" ∨ tr.usd_value < cfg.MIN_BUY_USD
  · rw [handle_spike_rejected cfg now am aid tr c hrej]
  · push_neg at hrej
    rcases ham : am aid with _ | mi
    · rw [handle_spike, if_neg (by simp [hrej.1, hrej.2]), ham]
    · rw [handle_spike_qualified cfg now am aid tr c mi hrej.1 (not_lt.mpr hrej.2) ham]
      split
      · rcases htr : trigger_alert cfg now aid mi (afterPrune cfg now tr c)
          with _ | _ | s
        · rfl
        · rfl
        · exfalso
          obtain ⟨lastT, hlast, hle, -, -, -⟩ :=
            trigger_alert_delivered_facts cfg now aid mi (afterPrune cfg now tr c) s htr
          rw [afterPrune_recent] at hlast
          have : lastT = tr :=
            pruneList_getLast_append cfg.TIME_WINDOW now c.recent_trades tr lastT hlast
          rw [this] at hle
          exact hle hp
      · rfl

theorem C4_price_suppression_witness :
    (wBuy 10 (99/100)).price > defaultConfig.MAX_SIGNAL_PRICE ∧
    (handle_spike defaultConfig 10 wAm "a" (wBuy 10 (99/100))
        { recent_trades := [wBuy 0 (1/2), wBuy 1 (1/2), wBuy 2 (1/2)]
        , count := 3, last_activity := 2, last_alert_count := 0 }).alert = none :=
  ⟨by norm_num [wBuy, defaultConfig],
   C4_price_suppression defaultConfig 10 wAm "a" (wBuy 10 (99/100)) _
     (by norm_num [wBuy, defaultConfig])⟩

theorem afterPrune_last_of_zero (cfg : Config) (now : ℚ) (tr : Trade)
    (c : AssetCounter) (hc : c.last_alert_count = 0) :
    (afterPrune cfg now tr c).last_alert_count = 0 := by
  rw [afterPrune, prune_old_trades]
  dsimp only [appendTrade]
  split <;> simp [hc]

/-- C3: if a prune makes the stored count drop from `≥ SPIKE_THRESHOLD`
to `< SPIKE_THRESHOLD`, `last_alert_count` is reset to 0; and from a
counter with `last_alert_count = 0`, any qualifying trade whose pruned
window count reaches a multiple of `SPIKE_THRESHOLD` at or above the
threshold fires again — a multiple that alerted before the drop is not
permanently suppressed. -/
theorem C3_reset_on_drop (cfg : Config) (hT : 0 < cfg.SPIKE_THRESHOLD) :
    (∀ (now : ℚ) (c : AssetCounter),
        cfg.SPIKE_THRESHOLD ≤ c.count →
        (prune_old_trades cfg now c).count < cfg.SPIKE_THRESHOLD →
        (prune_old_trades cfg now c).last_alert_count = 0)
  ∧ (∀ (now : ℚ) (am : String → Option MarketInfo) (aid : String) (tr : Trade)
        (c : AssetCounter) (mi : MarketInfo),
        c.last_alert_count = 0 → tr.side = "BUY" →
        ¬ tr.usd_value < cfg.MIN_BUY_USD → am aid = some mi →
        cfg.SPIKE_THRESHOLD ≤ (afterPrune cfg now tr c).count →
        (afterPrune cfg now tr c).count % cfg.SPIKE_THRESHOLD = 0 →
        (handle_spike cfg now am aid tr c).fired = true) := by
  constructor
  · intro now c hold hnew
    rw [prune_old_trades] at hnew ⊢
    dsimp only at hnew ⊢
    rw [if_pos ⟨hold, hnew⟩]
  · intro now am aid tr c mi hzero hside husd ham hge hmod
    rw [handle_spike_qualified cfg now am aid tr c mi hside husd ham]
    have hlz : (afterPrune cfg now tr c).last_alert_count = 0 :=
      afterPrune_last_of_zero cfg now tr c hzero
    rw [if_pos ⟨hge, by rw [hlz]; omega, hmod⟩]
    rcases trigger_alert cfg now aid mi (afterPrune cfg now tr c) with _ | _ | s <;> rfl

theorem C3_reset_on_drop_witness :
    (defaultConfig.SPIKE_THRESHOLD ≤
        ({ recent_trades := [wBuy 0 (1/2), wBuy 1 (1/2), wBuy 2 (1/2), wBuy 3 (1/2)]
         , count := 4, last_activity := 3, last_alert_count := 4 } : AssetCounter).count) ∧
    (prune_old_trades defaultConfig 200
        { recent_trades := [wBuy 0 (1/2), wBuy 1 (1/2), wBuy 2 (1/2), wBuy 3 (1/2)]
        , count := 4, last_activity := 3, last_alert_count := 4 }).count <
      defaultConfig.SPIKE_THRESHOLD ∧
    (prune_old_trades defaultConfig 200
        { recent_trades := [wBuy 0 (1/2), wBuy 1 (1/2), wBuy 2 (1/2), wBuy 3 (1/2)]
        , count := 4, last_activity := 3, last_alert_count := 4 }).last_alert_count = 0 :=
  ⟨by decide, by norm_num [prune_old_trades, pruneList, wBuy, defaultConfig],
   (C3_reset_on_drop defaultConfig (by decide)).1 200 _ (by decide)
     (by norm_num [prune_old_trades, pruneList, wBuy, defaultConfig])⟩

/-- C2: after a processed event, every trade kept in the counter is
within `TIME_WINDOW` of the processing time, the stored `count` is the
length of the pruned sequence, and any alert built at that point sums
`usd_value` over exactly the pruned sequence — so a trade older than
`TIME_WINDOW` contributes to neither `count` nor `amount_usd`.
(Timestamps arrive in order and never exceed the processing-time clock,
which the two list hypotheses state.) -/
theorem C2_window_pruning (cfg : Config) (now : ℚ)
    (am : String → Option MarketInfo) (aid : String) (tr : Trade) (c : AssetCounter)
    (mi : MarketInfo) (hside : tr.side = "BUY")
    (husd : ¬ tr.usd_value < cfg.MIN_BUY_USD) (ham : am aid = some mi)
    (hsort : (c.recent_trades ++ [tr]).Pairwise (fun a b => a.timestamp ≤ b.timestamp))
    (hpast : ∀ t ∈ c.recent_trades ++ [tr], t.timestamp ≤ now) :
    (∀ t ∈ (handle_spike cfg now am aid tr c).counter.recent_trades,
        now - t.timestamp ≤ cfg.TIME_WINDOW ∧ 0 ≤ now - t.timestamp) ∧
    (handle_spike cfg now am aid tr c).counter.count =
      (handle_spike cfg now am aid tr c).counter.recent_trades.length ∧
    (∀ s, (handle_spike cfg now am aid tr c).alert = some s →
        s.amount_usd =
          ((handle_spike cfg now am aid tr c).counter.recent_trades.map
            (·.usd_value)).sum) := by
  obtain ⟨hrec, hcnt⟩ := handle_spike_counter_shape cfg now am aid tr c mi hside husd ham
  refine ⟨?_, by rw [hrec, hcnt], ?_⟩
  · intro t ht
    rw [hrec] at ht
    refine ⟨pruneList_mem_window cfg.TIME_WINDOW now _ hsort t ht, ?_⟩
    have hmem : t ∈ c.recent_trades ++ [tr] :=
      (pruneList_suffix cfg.TIME_WINDOW now _).subset ht
    have := hpast t hmem
    linarith
  · intro s hs
    rw [handle_spike_qualified cfg now am aid tr c mi hside husd ham] at hs
    split at hs
    · rcases htr : trigger_alert cfg now aid mi (afterPrune cfg now tr c)
        with _ | _ | s'
      · rw [htr] at hs; cases hs
      · rw [htr] at hs; cases hs
      · rw [htr] at hs
        cases hs
        obtain ⟨lastT, -, -, -, hamt, -⟩ :=
          trigger_alert_delivered_facts cfg now aid mi (afterPrune cfg now tr c) s htr
        rw [hrec, ← afterPrune_recent]
        exact hamt
    · cases hs

def wCtr1 : AssetCounter :=
  { recent_trades := [wBuy 0 (1/2)], count := 1, last_activity := 0
  , last_alert_count := 0 }

theorem C2_window_pruning_witness :
    ((wCtr1.recent_trades ++ [wBuy 130 (1/2)]).Pairwise
        (fun a b => a.timestamp ≤ b.timestamp)) ∧
    ((∀ t ∈ (handle_spike defaultConfig 130 wAm "a" (wBuy 130 (1/2))
          wCtr1).counter.recent_trades,
        (130 : ℚ) - t.timestamp ≤ defaultConfig.TIME_WINDOW ∧
          (0 : ℚ) ≤ 130 - t.timestamp) ∧
      (handle_spike defaultConfig 130 wAm "a" (wBuy 130 (1/2)) wCtr1).counter.count =
        (handle_spike defaultConfig 130 wAm "a" (wBuy 130 (1/2))
          wCtr1).counter.recent_trades.length ∧
      (∀ s, (handle_spike defaultConfig 130 wAm "a" (wBuy 130 (1/2))
            wCtr1).alert = some s →
          s.amount_usd =
            ((handle_spike defaultConfig 130 wAm "a" (wBuy 130 (1/2))
              wCtr1).counter.recent_trades.map (·.usd_value)).sum)) :=
  ⟨by norm_num [wCtr1, wBuy],
   C2_window_pruning defaultConfig 130 wAm "a" (wBuy 130 (1/2)) wCtr1 wMi rfl
     (by norm_num [wBuy, defaultConfig]) (by simp [wAm])
     (by norm_num [wCtr1, wBuy])
     (by norm_num [wCtr1, wBuy])⟩

theorem mkList_length (mk : Nat → Trade) : ∀ s, (mkList mk s).length = s
  | 0 => rfl
  | s + 1 => by rw [mkList, List.length_append, mkList_length mk s]; rfl

theorem mkList_head (mk : Nat → Trade) :
    ∀ s, 1 ≤ s → ∃ rest, mkList mk s = mk 1 :: rest
  | 1, _ => ⟨[], rfl⟩
  | s + 2, _ => by
    obtain ⟨rest, hr⟩ := mkList_head mk (s + 1) (by omega)
    exact ⟨rest ++ [mk (s + 2)], by rw [mkList, hr, List.cons_append]⟩

/-- One scenario step: processing trade `s+1` at time `τ (s+1)` on a
counter holding trades `1..s`, when all trades are qualifying, resolve
to the same market, and the whole stream stays inside the window. -/
theorem scenario_step (cfg : Config)
    (am : String → Option MarketInfo) (aid : String) (mi : MarketInfo)
    (ham : am aid = some mi) (τ : Nat → ℚ) (mk : Nat → Trade) (K : Nat)
    (hq : ∀ i, 1 ≤ i → i ≤ K →
      (mk i).side = "BUY" ∧ ¬ (mk i).usd_value < cfg.MIN_BUY_USD ∧
      (mk i).timestamp = τ i)
    (hw : ∀ i, 1 ≤ i → i ≤ K → τ i - τ 1 ≤ cfg.TIME_WINDOW)
    (s : Nat) (hs1 : s + 1 ≤ K) (c : AssetCounter)
    (hrec : c.recent_trades = mkList mk s) (hcount : c.count = s)
    (hlast : c.last_alert_count ≤ s) :
    (handle_spike cfg (τ (s + 1)) am aid (mk (s + 1)) c).counter.recent_trades =
        mkList mk (s + 1) ∧
    (handle_spike cfg (τ (s + 1)) am aid (mk (s + 1)) c).counter.count = s + 1 ∧
    (handle_spike cfg (τ (s + 1)) am aid (mk (s + 1)) c).counter.last_alert_count ≤
        s + 1 ∧
    ((handle_spike cfg (τ (s + 1)) am aid (mk (s + 1)) c).fired = true ↔
      (cfg.SPIKE_THRESHOLD ≤ s + 1 ∧ (s + 1) % cfg.SPIKE_THRESHOLD = 0)) := by
  obtain ⟨hside, husd, hts⟩ := hq (s + 1) (by omega) hs1
  -- the appended list is the trades 1..s+1, and its front is trade 1
  have happ : c.recent_trades ++ [mk (s + 1)] = mkList mk (s + 1) := by
    rw [hrec, mkList]
  obtain ⟨rest, hhead⟩ := mkList_head mk (s + 1) (by omega)
  -- the prune drops nothing: the front trade is within the window
  have hnop : pruneList cfg.TIME_WINDOW (τ (s + 1)) (c.recent_trades ++ [mk (s + 1)]) =
      c.recent_trades ++ [mk (s + 1)] := by
    rw [happ, hhead]
    refine pruneList_no_prune _ _ _ _ ?_
    have h1 : (mk 1).timestamp = τ 1 := (hq 1 (by omega) (by omega)).2.2
    rw [h1]
    have := hw (s + 1) (by omega) hs1
    linarith
  have hc2rec : (afterPrune cfg (τ (s + 1)) (mk (s + 1)) c).recent_trades =
      mkList mk (s + 1) := by
    rw [afterPrune_recent, hnop, happ]
  have hc2cnt : (afterPrune cfg (τ (s + 1)) (mk (s + 1)) c).count = s + 1 := by
    rw [afterPrune_count, hnop, happ, mkList_length]
  have hc2last : (afterPrune cfg (τ (s + 1)) (mk (s + 1)) c).last_alert_count =
      c.last_alert_count := by
    rw [afterPrune, prune_old_trades]
    dsimp only [appendTrade]
    rw [if_neg]
    rw [hnop, happ, mkList_length, hcount]
    omega
  rw [handle_spike_qualified cfg (τ (s + 1)) am aid (mk (s + 1)) c mi hside husd ham]
  by_cases hfire : cfg.SPIKE_THRESHOLD ≤ s + 1 ∧ (s + 1) % cfg.SPIKE_THRESHOLD = 0
  · rw [if_pos (by rw [hc2cnt, hc2last]; exact ⟨hfire.1, by omega, hfire.2⟩)]
    rcases trigger_alert cfg (τ (s + 1)) aid mi
        (afterPrune cfg (τ (s + 1)) (mk (s + 1)) c) with _ | _ | sd
    · exact ⟨hc2rec, hc2cnt, by rw [hc2last]; omega, by simp [hfire]⟩
    · exact ⟨hc2rec, hc2cnt, by dsimp only; exact le_of_eq hc2cnt, by simp [hfire]⟩
    · exact ⟨hc2rec, hc2cnt, by dsimp only; exact le_of_eq hc2cnt, by simp [hfire]⟩
  · rw [if_neg (by rw [hc2cnt, hc2last]; intro h; exact hfire ⟨h.1, h.2.2⟩)]
    exact ⟨hc2rec, hc2cnt, by rw [hc2last]; omega, by simp [hfire]⟩

/-- The whole scenario run, by induction over the remaining trades. -/
theorem scenario_run (cfg : Config)
    (am : String → Option MarketInfo) (aid : String) (mi : MarketInfo)
    (ham : am aid = some mi) (τ : Nat → ℚ) (mk : Nat → Trade) (K : Nat)
    (hq : ∀ i, 1 ≤ i → i ≤ K →
      (mk i).side = "BUY" ∧ ¬ (mk i).usd_value < cfg.MIN_BUY_USD ∧
      (mk i).timestamp = τ i)
    (hw : ∀ i, 1 ≤ i → i ≤ K → τ i - τ 1 ≤ cfg.TIME_WINDOW) :
    ∀ (n s : Nat), s + n ≤ K →
      ∀ c : AssetCounter, c.recent_trades = mkList mk s → c.count = s →
        c.last_alert_count ≤ s →
        ∀ j, j < n →
          ∃ log, (runTrades cfg am aid c (scenEvents τ mk s n)).2[j]? = some log ∧
            log.count = s + j + 1 ∧
            (log.fired = true ↔
              (cfg.SPIKE_THRESHOLD ≤ s + j + 1 ∧
                (s + j + 1) % cfg.SPIKE_THRESHOLD = 0)) := by
  intro n
  induction n with
  | zero => intro s _ c _ _ _ j hj; omega
  | succ n ih =>
    intro s hsn c hrec hcnt hlast j hj
    obtain ⟨hrec', hcnt', hlast', hfired⟩ :=
      scenario_step cfg am aid mi ham τ mk K hq hw s (by omega) c hrec hcnt hlast
    rw [scenEvents, runTrades]
    rcases j with _ | j
    · exact ⟨⟨(handle_spike cfg (τ (s + 1)) am aid (mk (s + 1)) c).counter.count,
          (handle_spike cfg (τ (s + 1)) am aid (mk (s + 1)) c).fired,
          (handle_spike cfg (τ (s + 1)) am aid (mk (s + 1)) c).reset⟩, by simp, hcnt',
          hfired⟩
    · simp only [List.getElem?_cons_succ]
      obtain ⟨log, hlog, hlc, hlf⟩ := ih (s + 1) (by omega) _ hrec' hcnt' hlast' j
        (by omega)
      rw [show s + 1 + j + 1 = s + (j + 1) + 1 from by omega] at hlc hlf
      exact ⟨log, hlog, hlc, hlf⟩

/-- C1: on a processed qualifying BUY trade the spike condition fires
iff, after appending the trade and pruning, `count ≥ SPIKE_THRESHOLD`,
`count > last_alert_count` and `count % SPIKE_THRESHOLD = 0`; hence for
`K` qualifying trades on one instrument, all within the window, the
step handling trade `i` leaves count `i` and fires exactly when `i` is
a multiple of the threshold at or above it (counts `T, 2T, 3T, …`). -/
theorem C1_threshold_firing (cfg : Config) (_hT : 0 < cfg.SPIKE_THRESHOLD) :
    (∀ (now : ℚ) (am : String → Option MarketInfo) (aid : String) (tr : Trade)
        (c : AssetCounter) (mi : MarketInfo),
        tr.side = "BUY" → ¬ tr.usd_value < cfg.MIN_BUY_USD → am aid = some mi →
        ((handle_spike cfg now am aid tr c).fired = true ↔
          (cfg.SPIKE_THRESHOLD ≤ (afterPrune cfg now tr c).count ∧
           (afterPrune cfg now tr c).last_alert_count <
             (afterPrune cfg now tr c).count ∧
           (afterPrune cfg now tr c).count % cfg.SPIKE_THRESHOLD = 0)))
  ∧ (∀ (am : String → Option MarketInfo) (aid : String) (mi : MarketInfo)
        (τ : Nat → ℚ) (mk : Nat → Trade) (K : Nat) (t0 : ℚ),
        am aid = some mi →
        (∀ i, 1 ≤ i → i ≤ K →
          (mk i).side = "BUY" ∧ ¬ (mk i).usd_value < cfg.MIN_BUY_USD ∧
          (mk i).timestamp = τ i) →
        (∀ i, 1 ≤ i → i ≤ K → τ i - τ 1 ≤ cfg.TIME_WINDOW) →
        ∀ j, j < K →
          ∃ log, (runTrades cfg am aid (initCounter t0)
              (scenEvents τ mk 0 K)).2[j]? = some log ∧
            log.count = j + 1 ∧
            (log.fired = true ↔
              (cfg.SPIKE_THRESHOLD ≤ j + 1 ∧
                (j + 1) % cfg.SPIKE_THRESHOLD = 0))) := by
  constructor
  · intro now am aid tr c mi hside husd ham
    rw [handle_spike_qualified cfg now am aid tr c mi hside husd ham]
    by_cases hcond : cfg.SPIKE_THRESHOLD ≤ (afterPrune cfg now tr c).count ∧
        (afterPrune cfg now tr c).last_alert_count < (afterPrune cfg now tr c).count ∧
        (afterPrune cfg now tr c).count % cfg.SPIKE_THRESHOLD = 0
    · rw [if_pos hcond]
      rcases trigger_alert cfg now aid mi (afterPrune cfg now tr c) with _ | _ | s <;>
        simp [hcond]
    · rw [if_neg hcond]
      simp [hcond]
  · intro am aid mi τ mk K t0 ham hq hw j hj
    have := scenario_run cfg am aid mi ham τ mk K hq hw K 0 (by omega)
      (initCounter t0) rfl rfl (by simp [initCounter]) j hj
    simpa using this

theorem C1_threshold_firing_witness :
    (∀ i, 1 ≤ i → i ≤ 5 →
      ((fun i => (10 * i : ℚ)) i) - ((fun i => (10 * i : ℚ)) 1) ≤
        defaultConfig.TIME_WINDOW) ∧
    ∃ log, (runTrades defaultConfig wAm "a" (initCounter 0)
        (scenEvents (fun i => (10 * i : ℚ)) (fun i => wBuy (10 * i) (1/2)) 0 5)).2[3]? =
          some log ∧
      log.count = 4 ∧
      (log.fired = true ↔
        (defaultConfig.SPIKE_THRESHOLD ≤ 4 ∧ 4 % defaultConfig.SPIKE_THRESHOLD = 0)) := by
  constructor
  · intro i h1 h5
    show (10 * (i : ℚ)) - 10 * (1 : Nat) ≤ defaultConfig.TIME_WINDOW
    have hc : (i : ℚ) ≤ 5 := by exact_mod_cast h5
    norm_num [defaultConfig]
    linarith
  · exact (C1_threshold_firing defaultConfig (by decide)).2 wAm "a" wMi
      (fun i => (10 * i : ℚ)) (fun i => wBuy (10 * i) (1/2)) 5 0
      (by simp [wAm])
      (fun i _ _ => ⟨rfl, by norm_num [wBuy, defaultConfig], rfl⟩)
      (fun i h1 h5 => by
        show (10 * (i : ℚ)) - 10 * (1 : Nat) ≤ defaultConfig.TIME_WINDOW
        have hc : (i : ℚ) ≤ 5 := by exact_mod_cast h5
        norm_num [defaultConfig]
        linarith)
      3 (by omega)

theorem prune_last_of_not_reset (cfg : Config) (now : ℚ) (c : AssetCounter)
    (h : prune_resets cfg now c = false) :
    (prune_old_trades cfg now c).last_alert_count = c.last_alert_count := by
  rw [prune_resets, decide_eq_false_iff_not] at h
  rw [prune_old_trades]
  dsimp only
  rw [if_neg h]

theorem handle_spike_last_mono (cfg : Config) (now : ℚ)
    (am : String → Option MarketInfo) (aid : String) (tr : Trade) (c : AssetCounter)
    (hnr : (handle_spike cfg now am aid tr c).reset = false) :
    c.last_alert_count ≤ (handle_spike cfg now am aid tr c).counter.last_alert_count ∧
    ((handle_spike cfg now am aid tr c).fired = true →
      c.last_alert_count < (handle_spike cfg now am aid tr c).counter.count) := by
  by_cases hrej : tr.side ≠ "BUY" ∨ tr.usd_value < cfg.MIN_BUY_USD
  · rw [handle_spike_rejected cfg now am aid tr c hrej]
    exact ⟨le_refl _, by intro h; cases h⟩
  · push_neg at hrej
    rcases ham : am aid with _ | mi
    · rw [handle_spike, if_neg (by simp [hrej.1, hrej.2]), ham]
      exact ⟨le_refl _, by intro h; cases h⟩
    · rw [handle_spike_qualified cfg now am aid tr c mi hrej.1 (not_lt.mpr hrej.2) ham]
        at hnr ⊢
      have hlast2 : (afterPrune cfg now tr c).last_alert_count = c.last_alert_count := by
        refine prune_last_of_not_reset cfg now (appendTrade now tr c) ?_
        by_contra hne
        rw [Bool.not_eq_false] at hne
        rw [hne] at hnr
        split at hnr
        · rcases htr : trigger_alert cfg now aid mi (afterPrune cfg now tr c)
            with _ | _ | s <;> rw [htr] at hnr <;> simp at hnr
        · simp at hnr
      split
      · rename_i hcond
        rcases trigger_alert cfg now aid mi (afterPrune cfg now tr c) with _ | _ | s
        · exact ⟨le_of_eq hlast2.symm, fun _ => by rw [← hlast2]; exact hcond.2.1⟩
        · refine ⟨?_, fun _ => ?_⟩
          · dsimp only
            rw [← hlast2]
            exact le_of_lt hcond.2.1
          · dsimp only
            rw [← hlast2]
            exact hcond.2.1
        · refine ⟨?_, fun _ => ?_⟩
          · dsimp only
            rw [← hlast2]
            exact le_of_lt hcond.2.1
          · dsimp only
            rw [← hlast2]
            exact hcond.2.1
      · exact ⟨le_of_eq hlast2.symm, by intro h; cases h⟩

/-- C10 (implicit): a price-suppressed crossing still records
`last_alert_count := count` (the suppression happens inside
`trigger_alert` while line 98 of `handle_spike` runs unconditionally
afterwards); and in any later run in which no prune resets the counter,
every fired alert has a window count strictly above that recorded
value — the suppressed count can never alert again without a reset. -/
theorem C10_suppression_sticks (cfg : Config) (hT : 0 < cfg.SPIKE_THRESHOLD) :
    (∀ (now : ℚ) (am : String → Option MarketInfo) (aid : String) (tr : Trade)
        (c : AssetCounter) (mi : MarketInfo),
        tr.side = "BUY" → ¬ tr.usd_value < cfg.MIN_BUY_USD → am aid = some mi →
        mi.outcome_index < mi.outcomes.length →
        cfg.SPIKE_THRESHOLD ≤ (afterPrune cfg now tr c).count →
        (afterPrune cfg now tr c).last_alert_count < (afterPrune cfg now tr c).count →
        (afterPrune cfg now tr c).count % cfg.SPIKE_THRESHOLD = 0 →
        tr.price > cfg.MAX_SIGNAL_PRICE →
        (handle_spike cfg now am aid tr c).alert = none ∧
        (handle_spike cfg now am aid tr c).counter.last_alert_count =
          (afterPrune cfg now tr c).count)
  ∧ (∀ (am : String → Option MarketInfo) (aid : String)
        (trades : List (ℚ × Trade)) (c : AssetCounter) (m : Nat),
        m ≤ c.last_alert_count →
        (∀ log ∈ (runTrades cfg am aid c trades).2, log.reset = false) →
        ∀ log ∈ (runTrades cfg am aid c trades).2, log.fired = true → m < log.count) := by
  constructor
  · intro now am aid tr c mi hside husd ham hidx hge hgt hmod hp
    have hne : pruneList cfg.TIME_WINDOW now (c.recent_trades ++ [tr]) ≠ [] := by
      intro h0
      rw [afterPrune_count, h0] at hge
      simp at hge
      omega
    obtain ⟨l', hl'⟩ :=
      (pruneList_append_last cfg.TIME_WINDOW now tr c.recent_trades).resolve_left hne
    have hlastTr : (afterPrune cfg now tr c).recent_trades.getLast? = some tr := by
      rw [afterPrune_recent, hl', List.getLast?_append]
      rfl
    have houtc : mi.outcomes[mi.outcome_index]? = some mi.outcomes[mi.outcome_index] :=
      List.getElem?_eq_getElem hidx
    have htrig : trigger_alert cfg now aid mi (afterPrune cfg now tr c) =
        .suppressed := by
      rw [trigger_alert, houtc, hlastTr]
      dsimp only
      rw [if_pos hp]
    rw [handle_spike_qualified cfg now am aid tr c mi hside husd ham,
      if_pos ⟨hge, hgt, hmod⟩, htrig]
    exact ⟨rfl, rfl⟩
  · intro am aid trades
    induction trades with
    | nil => intro c m _ _ log hlog; cases hlog
    | cons p rest ih =>
      intro c m hm hreset log hlog hfired
      rw [runTrades] at hreset hlog
      have hhead : ({ count := (handle_spike cfg p.1 am aid p.2 c).counter.count
                    , fired := (handle_spike cfg p.1 am aid p.2 c).fired
                    , reset := (handle_spike cfg p.1 am aid p.2 c).reset } :
                    StepLog).reset = false :=
        hreset _ (List.mem_cons_self _ _)
      obtain ⟨hmono, hfire⟩ :=
        handle_spike_last_mono cfg p.1 am aid p.2 c hhead
      rcases List.mem_cons.mp hlog with rfl | htail
      · exact lt_of_le_of_lt hm (hfire hfired)
      · exact ih (handle_spike cfg p.1 am aid p.2 c).counter m (le_trans hm hmono)
          (fun l hl => hreset l (List.mem_cons_of_mem _ hl)) log htail hfired

theorem C10_suppression_sticks_witness :
    (wBuy 3 (99/100)).price > defaultConfig.MAX_SIGNAL_PRICE ∧
    (handle_spike defaultConfig 3 wAm "a" (wBuy 3 (99/100))
        { recent_trades := [wBuy 0 (1/2), wBuy 1 (1/2), wBuy 2 (1/2)]
        , count := 3, last_activity := 2, last_alert_count := 0 }).alert = none ∧
    (handle_spike defaultConfig 3 wAm "a" (wBuy 3 (99/100))
        { recent_trades := [wBuy 0 (1/2), wBuy 1 (1/2), wBuy 2 (1/2)]
        , count := 3, last_activity := 2, last_alert_count := 0 }).counter.last_alert_count =
      (afterPrune defaultConfig 3 (wBuy 3 (99/100))
        { recent_trades := [wBuy 0 (1/2), wBuy 1 (1/2), wBuy 2 (1/2)]
        , count := 3, last_activity := 2, last_alert_count := 0 }).count := by
  have happ := (C10_suppression_sticks defaultConfig (by decide)).1 3 wAm "a"
    (wBuy 3 (99/100))
    { recent_trades := [wBuy 0 (1/2), wBuy 1 (1/2), wBuy 2 (1/2)]
    , count := 3, last_activity := 2, last_alert_count := 0 } wMi rfl
    (by norm_num [wBuy, defaultConfig]) (by simp [wAm]) (by simp [wMi])
    (by norm_num [afterPrune, prune_old_trades, appendTrade, pruneList, wBuy,
      defaultConfig])
    (by norm_num [afterPrune, prune_old_trades, appendTrade, pruneList, wBuy,
      defaultConfig])
    (by norm_num [afterPrune, prune_old_trades, appendTrade, pruneList, wBuy,
      defaultConfig])
    (by norm_num [wBuy, defaultConfig])
  exact ⟨by norm_num [wBuy, defaultConfig], happ.1, happ.2⟩

/-! ### Supporting lemmas for the rebalancing policy -/

theorem fill_worker_spec (cap : Nat) :
    ∀ (ids : List String) (cnt : Nat), cnt < cap →
      fill_worker cap cnt ids = (ids.take (cap - cnt), ids.drop (cap - cnt))
  | [], _, _ => by simp [fill_worker]
  | id :: ids, cnt, h => by
    rw [fill_worker]
    by_cases hc : cap ≤ cnt + 1
    · rw [if_pos hc]
      have h1 : cap - cnt = 1 := by omega
      rw [h1]
      simp
    · rw [if_neg hc]
      dsimp only
      rw [fill_worker_spec cap ids (cnt + 1) (by omega)]
      have h2 : cap - cnt = (cap - (cnt + 1)) + 1 := by omega
      rw [h2, List.take_succ_cons, List.drop_succ_cons]

theorem distribute_assets_no_ids : ∀ caps : List Nat, (distribute_assets caps []).2 = []
  | [] => rfl
  | cap :: caps => by
    rw [distribute_assets]
    dsimp only
    have h1 : fill_worker cap 0 ([] : List String) = ([], []) := by rw [fill_worker]
    rw [h1]
    exact distribute_assets_no_ids caps

theorem distribute_assets_spec : ∀ (caps : List Nat) (ids : List String),
    (∀ cp ∈ caps, 0 < cp) →
    (distribute_assets caps ids).1.length = caps.length ∧
    (distribute_assets caps ids).1.flatten ++ (distribute_assets caps ids).2 = ids ∧
    (∀ p ∈ caps.zip (distribute_assets caps ids).1, p.2.length ≤ p.1) ∧
    ((distribute_assets caps ids).2 ≠ [] →
      ∀ p ∈ caps.zip (distribute_assets caps ids).1, p.2.length = p.1)
  | [], ids, _ => by simp [distribute_assets]
  | cap :: caps, ids, hpos => by
    have hcap : 0 < cap := hpos cap (List.mem_cons_self _ _)
    have hfill := fill_worker_spec cap ids 0 hcap
    rw [Nat.sub_zero] at hfill
    obtain ⟨ihlen, ihflat, ihle, ihsat⟩ :=
      distribute_assets_spec caps (ids.drop cap)
        (fun cp hcp => hpos cp (List.mem_cons_of_mem _ hcp))
    rw [distribute_assets]
    dsimp only
    rw [hfill]
    refine ⟨by simp [ihlen], ?_, ?_, ?_⟩
    · rw [List.flatten_cons, List.append_assoc, ihflat, List.take_append_drop]
    · intro p hp
      rcases List.mem_cons.mp hp with rfl | htail
      · dsimp only
        rw [List.length_take]
        omega
      · exact ihle p htail
    · intro hun p hp
      have hdrop : ids.drop cap ≠ [] := by
        intro h0
        rw [h0, distribute_assets_no_ids] at hun
        exact hun rfl
      rcases List.mem_cons.mp hp with rfl | htail
      · dsimp only
        rw [List.length_take]
        have : cap < ids.length := by
          by_contra hlen
          exact hdrop (List.drop_eq_nil_of_le (by omega))
        omega
      · exact ihsat hun p htail

theorem split_chunks_spec (size : Nat) (hs : 0 < size) :
    ∀ (n : Nat) (ids : List String), ids.length ≤ n →
      (split_chunks ids size).flatten = ids ∧
      ∀ ch ∈ split_chunks ids size, ch.length ≤ size ∧ ch ≠ []
  | 0, ids, h => by
    have h0 : ids = [] := List.eq_nil_of_length_eq_zero (by omega)
    subst h0
    rw [split_chunks]
    simp
  | n + 1, ids, h => by
    by_cases hid : ids = []
    · subst hid
      rw [split_chunks]
      simp
    · rw [split_chunks, dif_neg (by push_neg; exact ⟨by omega, hid⟩)]
      obtain ⟨ihflat, ihmem⟩ := split_chunks_spec size hs n (ids.drop size)
        (by rw [List.length_drop]; have := List.length_pos.mpr hid; omega)
      refine ⟨?_, ?_⟩
      · rw [List.flatten_cons, ihflat, List.take_append_drop]
      · intro ch hch
        rcases List.mem_cons.mp hch with rfl | htail
        · refine ⟨by rw [List.length_take]; omega, ?_⟩
          rw [Ne, List.take_eq_nil_iff]
          push_neg
          exact ⟨by omega, hid⟩
        · exact ihmem ch htail

theorem spare_capacities_mem (CS : Nat) :
    ∀ (i0 : Nat) (chunks : List (List String)) (p : Nat × Nat),
      p ∈ spare_capacities CS i0 chunks →
      ∃ ch, i0 ≤ p.1 ∧ chunks[p.1 - i0]? = some ch ∧ ch.length < CS ∧
        p.2 = CS - ch.length
  | _, [], p, hp => by cases hp
  | i0, ch :: rest, p, hp => by
    rw [spare_capacities] at hp
    rcases List.mem_append.mp hp with hhead | htail
    · have hlen : ch.length < CS := by
        by_contra hge
        rw [if_neg hge] at hhead
        cases hhead
      rw [if_pos hlen] at hhead
      rcases List.mem_singleton.mp hhead with rfl
      exact ⟨ch, le_refl _, by simp, hlen, rfl⟩
    · obtain ⟨ch', hle, hget, hlt, hcap⟩ := spare_capacities_mem CS (i0 + 1) rest p htail
      refine ⟨ch', by omega, ?_, hlt, hcap⟩
      have : p.1 - i0 = (p.1 - (i0 + 1)) + 1 := by omega
      rw [this, List.getElem?_cons_succ]
      exact hget

/-- C6: rebalancing policy of `SpikeBot.subscribe_new_assets`.  With at
least one worker and a positive chunk size: every selected worker's
capacity is `CHUNK_SIZE − len(chunk)` and only workers below capacity
are selected; workers are considered in descending order of spare
capacity; each worker receives at most its capacity; the assignments
followed by the unassigned ids partition `newIds` in order (greedy
fill); a non-empty leftover means every selected worker was filled to
capacity; and new workers are spawned exactly for the leftover,
partitioned into chunks of size at most `CHUNK_SIZE`. -/
theorem C6_rebalance (CS : Nat) (chunks : List (List String)) (newIds : List String)
    (hCS : 0 < CS) (hne : chunks ≠ []) :
    (∀ p ∈ (subscribe_new_assets CS chunks newIds).1,
        ∃ ch, chunks[p.1.1]? = some ch ∧ ch.length < CS ∧ p.1.2 = CS - ch.length) ∧
    ((subscribe_new_assets CS chunks newIds).1.map (fun p => p.1.2)).Sorted (· ≥ ·) ∧
    (∀ p ∈ (subscribe_new_assets CS chunks newIds).1, p.2.length ≤ p.1.2) ∧
    ((subscribe_new_assets CS chunks newIds).1.map (fun p => p.2)).flatten ++
        (subscribe_new_assets CS chunks newIds).2.1 = newIds ∧
    ((subscribe_new_assets CS chunks newIds).2.1 ≠ [] →
        ∀ p ∈ (subscribe_new_assets CS chunks newIds).1, p.2.length = p.1.2) ∧
    (subscribe_new_assets CS chunks newIds).2.2 =
        split_chunks (subscribe_new_assets CS chunks newIds).2.1 CS ∧
    (subscribe_new_assets CS chunks newIds).2.2.flatten =
        (subscribe_new_assets CS chunks newIds).2.1 ∧
    (∀ ch ∈ (subscribe_new_assets CS chunks newIds).2.2, ch.length ≤ CS ∧ ch ≠ []) := by
  have hemp : chunks.isEmpty = false := by
    cases chunks with
    | nil => exact absurd rfl hne
    | cons a l => rfl
  have hunfold : subscribe_new_assets CS chunks newIds =
      (((spare_capacities CS 0 chunks).mergeSort (fun a b => b.2 ≤ a.2)).zip
         (distribute_assets
           (((spare_capacities CS 0 chunks).mergeSort
               (fun a b => b.2 ≤ a.2)).map (fun p => p.2)) newIds).1,
       (distribute_assets
           (((spare_capacities CS 0 chunks).mergeSort
               (fun a b => b.2 ≤ a.2)).map (fun p => p.2)) newIds).2,
       split_chunks
         (distribute_assets
           (((spare_capacities CS 0 chunks).mergeSort
               (fun a b => b.2 ≤ a.2)).map (fun p => p.2)) newIds).2 CS) := by
    rw [subscribe_new_assets, if_neg (by simp [hemp])]
  rw [hunfold]
  dsimp only
  have hmem_sorted : ∀ p ∈ (spare_capacities CS 0 chunks).mergeSort
      (fun a b => b.2 ≤ a.2), p ∈ spare_capacities CS 0 chunks :=
    fun p hp => List.mem_mergeSort.mp hp
  have hcappos : ∀ cp ∈ (((spare_capacities CS 0 chunks).mergeSort
      (fun a b => b.2 ≤ a.2)).map (fun p => p.2)), 0 < cp := by
    intro cp hcp
    obtain ⟨p, hp, rfl⟩ := List.mem_map.mp hcp
    obtain ⟨ch, -, -, hlt, hcap⟩ :=
      spare_capacities_mem CS 0 chunks p (hmem_sorted p hp)
    omega
  obtain ⟨hdlen, hdflat, hdle, hdsat⟩ := distribute_assets_spec
    (((spare_capacities CS 0 chunks).mergeSort
        (fun a b => b.2 ≤ a.2)).map (fun p => p.2)) newIds hcappos
  have hlen_eq : (distribute_assets
      (((spare_capacities CS 0 chunks).mergeSort
          (fun a b => b.2 ≤ a.2)).map (fun p => p.2)) newIds).1.length =
      ((spare_capacities CS 0 chunks).mergeSort (fun a b => b.2 ≤ a.2)).length := by
    rw [hdlen, List.length_map]
  obtain ⟨hsflat, hsmem⟩ := split_chunks_spec CS hCS
    (distribute_assets
      (((spare_capacities CS 0 chunks).mergeSort
          (fun a b => b.2 ≤ a.2)).map (fun p => p.2)) newIds).2.length _ (le_refl _)
  refine ⟨?_, ?_, ?_, ?_, ?_, rfl, hsflat, hsmem⟩
  · intro p hp
    obtain ⟨ch, -, hget, hlt, hcap⟩ :=
      spare_capacities_mem CS 0 chunks p.1 (hmem_sorted p.1 (List.of_mem_zip hp).1)
    exact ⟨ch, by simpa using hget, hlt, hcap⟩
  · have hfst : ((((spare_capacities CS 0 chunks).mergeSort
        (fun a b => b.2 ≤ a.2)).zip
        (distribute_assets
          (((spare_capacities CS 0 chunks).mergeSort
              (fun a b => b.2 ≤ a.2)).map (fun p => p.2)) newIds).1).map Prod.fst) =
        (spare_capacities CS 0 chunks).mergeSort (fun a b => b.2 ≤ a.2) :=
      List.map_fst_zip _ _ (le_of_eq hlen_eq.symm)
    have hpair : ((spare_capacities CS 0 chunks).mergeSort
        (fun a b => b.2 ≤ a.2)).Pairwise (fun a b => b.2 ≤ a.2) := by
      have hs := @List.sorted_mergeSort (Nat × Nat)
        (fun a b => decide (b.2 ≤ a.2))
        (fun a b c hab hbc => by
          simp only [decide_eq_true_eq] at *
          omega)
        (fun a b => by
          rcases Nat.le_total b.2 a.2 with h | h <;> simp [h])
        (spare_capacities CS 0 chunks)
      exact hs.imp (fun h => of_decide_eq_true h)
    rw [show (fun p : (Nat × Nat) × List String => p.1.2) =
        (fun q : Nat × Nat => q.2) ∘ Prod.fst from rfl, ← List.map_map, hfst]
    exact List.Pairwise.map _ (fun a b h => h) hpair
  · intro p hp
    refine hdle (p.1.2, p.2) ?_
    rw [List.zip_map_left]
    exact List.mem_map_of_mem _ hp
  · have hsnd : ((((spare_capacities CS 0 chunks).mergeSort
        (fun a b => b.2 ≤ a.2)).zip
        (distribute_assets
          (((spare_capacities CS 0 chunks).mergeSort
              (fun a b => b.2 ≤ a.2)).map (fun p => p.2)) newIds).1).map Prod.snd) =
        (distribute_assets
          (((spare_capacities CS 0 chunks).mergeSort
              (fun a b => b.2 ≤ a.2)).map (fun p => p.2)) newIds).1 :=
      List.map_snd_zip _ _ (le_of_eq hlen_eq)
    rw [show (fun p : (Nat × Nat) × List String => p.2) =
        (Prod.snd : (Nat × Nat) × List String → List String) from rfl, hsnd, hdflat]
  · intro hun p hp
    refine hdsat hun (p.1.2, p.2) ?_
    rw [List.zip_map_left]
    exact List.mem_map_of_mem _ hp

theorem C6_rebalance_witness :
    0 < 3 ∧ ([["x"], ["y", "z", "w"], []] : List (List String)) ≠ [] ∧
    ((∀ p ∈ (subscribe_new_assets 3 [["x"], ["y", "z", "w"], []]
          ["n1", "n2", "n3", "n4", "n5", "n6"]).1,
        ∃ ch, ([["x"], ["y", "z", "w"], []] : List (List String))[p.1.1]? = some ch ∧
          ch.length < 3 ∧ p.1.2 = 3 - ch.length) ∧
      ((subscribe_new_assets 3 [["x"], ["y", "z", "w"], []]
          ["n1", "n2", "n3", "n4", "n5", "n6"]).1.map (fun p => p.1.2)).Sorted (· ≥ ·) ∧
      (∀ p ∈ (subscribe_new_assets 3 [["x"], ["y", "z", "w"], []]
          ["n1", "n2", "n3", "n4", "n5", "n6"]).1, p.2.length ≤ p.1.2) ∧
      ((subscribe_new_assets 3 [["x"], ["y", "z", "w"], []]
          ["n1", "n2", "n3", "n4", "n5", "n6"]).1.map (fun p => p.2)).flatten ++
        (subscribe_new_assets 3 [["x"], ["y", "z", "w"], []]
          ["n1", "n2", "n3", "n4", "n5", "n6"]).2.1 =
        ["n1", "n2", "n3", "n4", "n5", "n6"] ∧
      ((subscribe_new_assets 3 [["x"], ["y", "z", "w"], []]
          ["n1", "n2", "n3", "n4", "n5", "n6"]).2.1 ≠ [] →
        ∀ p ∈ (subscribe_new_assets 3 [["x"], ["y", "z", "w"], []]
          ["n1", "n2", "n3", "n4", "n5", "n6"]).1, p.2.length = p.1.2) ∧
      (subscribe_new_assets 3 [["x"], ["y", "z", "w"], []]
          ["n1", "n2", "n3", "n4", "n5", "n6"]).2.2 =
        split_chunks (subscribe_new_assets 3 [["x"], ["y", "z", "w"], []]
          ["n1", "n2", "n3", "n4", "n5", "n6"]).2.1 3 ∧
      (subscribe_new_assets 3 [["x"], ["y", "z", "w"], []]
          ["n1", "n2", "n3", "n4", "n5", "n6"]).2.2.flatten =
        (subscribe_new_assets 3 [["x"], ["y", "z", "w"], []]
          ["n1", "n2", "n3", "n4", "n5", "n6"]).2.1 ∧
      (∀ ch ∈ (subscribe_new_assets 3 [["x"], ["y", "z", "w"], []]
          ["n1", "n2", "n3", "n4", "n5", "n6"]).2.2, ch.length ≤ 3 ∧ ch ≠ [])) :=
  ⟨by decide, by decide,
   C6_rebalance 3 [["x"], ["y", "z", "w"], []] ["n1", "n2", "n3", "n4", "n5", "n6"]
     (by decide) (by decide)⟩

/-- C7 counterexample: the claim says the first failure (attempt
counter starting at zero) sleeps `base_delay = 5` seconds; the code
increments `reconnect_attempts` *before* computing the sleep
(lines 172-173), so the first failure sleeps `5 · 2^min(1,5) = 10`
seconds, not 5. -/
theorem C7_counterexample :
    (run_step 0 ConnOutcome.failRaise).2 = some 10 ∧ ((10 : ℚ) = 5 → False) := by
  constructor
  · show some (backoff_sleep (0 + 1)) = some 10
    norm_num [backoff_sleep]
  · norm_num

/-- C7 amended: on an attempt that ends in an exception the worker
first increments the attempt counter and then sleeps
`5 · 2^min(attempts, 5)` seconds computed from the incremented value
(so the n-th consecutive failure sleeps `5 · 2^min(n,5)`, the first one
10 s); these delays are non-decreasing across consecutive failures; a
successful open resets the counter to zero, and an iteration whose
connection opened and later closed without raising performs no sleep at
all before reconnecting. -/
theorem C7_amended_backoff (a : Nat) :
    run_step a ConnOutcome.failRaise = (a + 1, some (backoff_sleep (a + 1))) ∧
    backoff_sleep (a + 1) ≤ backoff_sleep (a + 2) ∧
    run_step a ConnOutcome.openThenClose = (0, none) ∧
    run_step a ConnOutcome.openThenRaise = (1, some (backoff_sleep 1)) := by
  refine ⟨rfl, ?_, rfl, rfl⟩
  rw [backoff_sleep, backoff_sleep]
  have h2 : (2 : ℚ) ^ min (a + 1) 5 ≤ 2 ^ min (a + 2) 5 :=
    pow_le_pow_right₀ (by norm_num)
      (min_le_min (Nat.le_succ (a + 1)) (le_refl 5))
  linarith

/-- C8: the event queue is created bounded
(`queue.Queue(maxsize=10000)`, `main.py` line 70) and the worker's push
is a plain `self.queue.put(data)` — `block=True, timeout=None` — which
on a full queue suspends with no bound and no drop policy; here the
push of one more event onto a full queue is the modelled suspension. -/
theorem C8_full_queue_put_suspends :
    queue_put
      { maxsize := EVENT_QUEUE_MAXSIZE
      , items := List.replicate EVENT_QUEUE_MAXSIZE (0 : Nat) } 1 = none := by
  rw [queue_put, if_neg]
  push_neg
  exact ⟨by norm_num [EVENT_QUEUE_MAXSIZE], by rw [List.length_replicate]⟩

/-- The message used to refute C9 as stated: `side` is present but
empty, and `size` is a decimal string rather than a number. -/
def badFields : List (String × Json) :=
  [("asset_id", Json.str "a"), ("size", Json.str "3000"),
   ("price", Json.num 1), ("side", Json.str ""),
   ("event_type", Json.str "last_trade_price")]

/-- C9 counterexample: the handler checks only that `side` is a present
key (`'side' not in data`), not that it is non-empty, and converts
string-valued sizes with `float()`; this message with an empty `side`
and a string `size` is queued, contradicting the claim that a
TradeEvent is produced only for a non-empty side and numeric size. -/
theorem C9_counterexample :
    dict_get badFields "side" = some (Json.str "") ∧
    dict_get badFields "size" = some (Json.str "3000") ∧
    (on_message 7 5 (RawMsg.parsedObj badFields)).isSome = true := by
  exact ⟨rfl, rfl, rfl⟩

/-- C9 amended: a message produces a queued TradeEvent (stamped with
the worker's id and the ingestion-time clock reading) iff it is a
structured object whose `asset_id` and `side` keys are present (an
empty side passes — only key presence is checked), whose `size` and
`price` convert via `float()` to strictly positive values (numeric
values or decimal strings), and whose `event_type` is the string
`last_trade_price`; every other input — non-structured bytes, arrays,
missing keys, non-convertible or non-positive sizes/prices, other event
types — produces no TradeEvent, each such path returning normally. -/
theorem C9_amended_parsing (wid : Nat) (now : ℚ) (msg : RawMsg) :
    ((on_message wid now msg).isSome = on_message_accepts msg) ∧
    (∀ q, on_message wid now msg = some q →
      q.worker_id = wid ∧ q.timestamp = now) := by
  cases msg with
  | notStructured => exact ⟨rfl, fun q hq => by cases hq⟩
  | parsedArr es => exact ⟨rfl, fun q hq => by cases hq⟩
  | parsedObj fields =>
    rw [on_message, on_message_accepts]
    rcases ha : dict_get fields "asset_id" with _ | av
    · simp
    rcases hs : dict_get fields "size" with _ | sv
    · simp
    rcases hp : dict_get fields "price" with _ | pv
    · simp
    rcases hd : dict_get fields "side" with _ | dv
    · simp
    rw [if_neg (by simp)]
    simp only [Option.getD_some, Option.some_bind, Option.isSome_some, Bool.true_and]
    rcases hfs : pyFloat sv with _ | sf
    · simp
    rcases hfp : pyFloat pv with _ | pf
    · simp
    dsimp only
    by_cases hpos : sf ≤ 0 ∨ pf ≤ 0
    · rw [if_pos hpos]
      refine ⟨?_, fun q hq => by cases hq⟩
      rcases hpos with h0 | h0 <;>
        simp [not_lt.mpr h0]
    · rw [if_neg hpos]
      push_neg at hpos
      rw [decide_eq_true hpos.1, decide_eq_true hpos.2]
      simp only [Bool.true_and]
      rcases het : dict_get fields "event_type" with _ | ev
      · exact ⟨rfl, fun q hq => by cases hq⟩
      cases ev with
      | str et =>
        dsimp only
        by_cases hlt : et = "last_trade_price"
        · rw [if_pos hlt]
          refine ⟨by simp [hlt], fun q hq => ?_⟩
          cases hq
          exact ⟨rfl, rfl⟩
        · rw [if_neg hlt]
          refine ⟨?_, fun q hq => by cases hq⟩
          simp [hlt]
      | null => exact ⟨rfl, fun q hq => by cases hq⟩
      | bool b => exact ⟨rfl, fun q hq => by cases hq⟩
      | num q => exact ⟨rfl, fun q hq => by cases hq⟩
      | arr l => exact ⟨rfl, fun q hq => by cases hq⟩
      | obj l => exact ⟨rfl, fun q hq => by cases hq⟩
